import Mathlib

/-!
Verification development for the "Februar spare-challenge" budget/ledger
application (source: `src/app/page.tsx`).

The embedding models the JavaScript/TypeScript core of the page as pure Lean
functions:

* JavaScript numbers are modelled by `JSNum`: an exact rational together with
  the three special values `NaN`, `Infinity` and `-Infinity`.  All monetary
  values in the application are small decimals, far inside the range where
  IEEE-754 doubles behave exactly like the corresponding rationals for the
  operations the code performs (addition, subtraction, comparison, `max`),
  so rounding of doubles is abstracted away.
* The `ECMAScript` string-to-number conversion (`Number(string)`), string
  trimming (`String.prototype.trim`) and `toFixed(2)` rounding are modelled
  by executable functions `jsNumber`, `jsTrim` and `jsToFixed2` below.
* The component state of the `Home` component (budget, entries, the four
  input fields and the validation message) is the structure `HomeState`;
  the event handlers `addEntry`, `resetMonth` and the budget-slider
  `onChange` handler (`setBudget`) become state-to-state functions.  The
  nondeterministic inputs `crypto.randomUUID()` and `new Date()` are passed
  in as explicit parameters.
* `localStorage` reads are modelled by `StorageRead` (the slot is absent,
  holds a string, or reading throws) and `JSON.parse` of the entries slot by
  an explicit parse-outcome parameter.
* Calendar instants (`new Date()` and dates constructed from year, month
  index and day) are modelled by `Instant`: a proleptic Gregorian local
  calendar date plus a millisecond-of-day, exactly the information the code
  consumes through `getFullYear`, `getDate`, comparisons and `getTime`
  differences.  All dates in the code are built and compared in the same
  local timezone, so a fixed UTC offset cancels everywhere and is omitted.
  Daylight-saving shifts are ignored (they can only perturb
  `daysUntilStart`, and none of the claims depend on an instant range that
  crosses such a shift in February or late January).
-/

/-- Models a JavaScript number as an exact rational or one of the special
values `NaN`, `Infinity`, `-Infinity`.  The distinction between `0` and `-0`
is dropped: the code only uses numbers through truthiness, ordering,
arithmetic and rounding, where the two behave identically. -/
inductive JSNum where
  | nan : JSNum
  | inf : JSNum
  | negInf : JSNum
  | finite (q : ℚ) : JSNum
deriving DecidableEq, Repr

/-- Models JavaScript truthiness of a number (`!x` in the source): `NaN`,
`0` and `-0` are falsy, every other number is truthy. -/
def jsFalsy : JSNum → Bool
  | .nan => true
  | .finite q => q == 0
  | _ => false

/-- Models the JavaScript comparison `x <= 0`: false when `x` is `NaN`,
otherwise the numeric order with `-Infinity < 0 < Infinity`. -/
def jsLeZero : JSNum → Bool
  | .nan => false
  | .inf => false
  | .negInf => true
  | .finite q => decide (q ≤ 0)

/-- Models JavaScript `+` on numbers: `NaN` is absorbing, opposite
infinities give `NaN`, an infinity plus anything finite keeps its sign,
finite values add exactly. -/
def jsAdd : JSNum → JSNum → JSNum
  | .nan, _ => .nan
  | _, .nan => .nan
  | .inf, .negInf => .nan
  | .negInf, .inf => .nan
  | .inf, _ => .inf
  | _, .inf => .inf
  | .negInf, _ => .negInf
  | _, .negInf => .negInf
  | .finite a, .finite b => .finite (a + b)

/-- Models JavaScript binary `-` on numbers, with the same special-value
rules as `jsAdd`. -/
def jsSub : JSNum → JSNum → JSNum
  | .nan, _ => .nan
  | _, .nan => .nan
  | .inf, .inf => .nan
  | .negInf, .negInf => .nan
  | .inf, _ => .inf
  | _, .inf => .negInf
  | .negInf, _ => .negInf
  | _, .negInf => .inf
  | .finite a, .finite b => .finite (a - b)

/-- Models `Math.max` on two numbers: `NaN` if either argument is `NaN`,
otherwise the larger argument. -/
def jsMax : JSNum → JSNum → JSNum
  | .nan, _ => .nan
  | _, .nan => .nan
  | .inf, _ => .inf
  | _, .inf => .inf
  | .negInf, b => b
  | a, .negInf => a
  | .finite a, .finite b => .finite (max a b)

/-- Models `String.prototype.trim`: removes whitespace from both ends of the
string.  (The JavaScript whitespace class additionally contains a few exotic
code points such as NBSP; the application only ever feeds keyboard input and
its own serialised output through `trim`, where the two classes agree.) -/
def jsTrim (s : String) : String :=
  ⟨((s.toList.dropWhile Char.isWhitespace).reverse.dropWhile Char.isWhitespace).reverse⟩

/-- Decimal digit sequence to natural number, most significant digit
first. -/
def digitsToNat (ds : List Char) : Nat :=
  ds.foldl (fun a c => 10 * a + (c.toNat - 48)) 0

/-- Hexadecimal digit test for the `0x` literal form of `Number(string)`. -/
def isHexDigitChar (c : Char) : Bool :=
  c.isDigit || ('a' ≤ c && c ≤ 'f') || ('A' ≤ c && c ≤ 'F')

/-- Hexadecimal digit sequence to natural number. -/
def hexToNat (ds : List Char) : Nat :=
  ds.foldl
    (fun a c =>
      16 * a + (if c.isDigit then c.toNat - 48
                else if 'a' ≤ c then c.toNat - 87 else c.toNat - 55))
    0

/-- Binary digit test for the `0b` literal form of `Number(string)`. -/
def isBinDigitChar (c : Char) : Bool := c = '0' || c = '1'

/-- Octal digit test for the `0o` literal form of `Number(string)`. -/
def isOctDigitChar (c : Char) : Bool := '0' ≤ c && c ≤ '7'

/-- Octal digit sequence to natural number. -/
def octToNat (ds : List Char) : Nat :=
  ds.foldl (fun a c => 8 * a + (c.toNat - 48)) 0

/-- Binary digit sequence to natural number. -/
def binToNat (ds : List Char) : Nat :=
  ds.foldl (fun a c => 2 * a + (c.toNat - 48)) 0

/-- Splits off a maximal run of decimal digits. -/
def readDigits (cs : List Char) : List Char × List Char :=
  (cs.takeWhile Char.isDigit, cs.dropWhile Char.isDigit)

/-- Reads an optional sign character, returning the sign and the rest. -/
def readSign : List Char → Int × List Char
  | '+' :: r => (1, r)
  | '-' :: r => (-1, r)
  | r => (1, r)

/-- Exact value of a signed decimal literal: sign, all mantissa digits
(integer part followed by fraction part), the number of fraction digits, and
the exponent. -/
def mkVal (sgn : Int) (digits : List Char) (fracLen : Nat) (e : Int) : ℚ :=
  (sgn : ℚ) * (digitsToNat digits : ℚ) * 10 ^ (e - fracLen)

/-- Models the `ECMAScript` `Number(string)` conversion (the
`StringNumericLiteral` grammar): surrounding whitespace is ignored, the
empty string is `0`, `Infinity` with optional sign is infinite, `0x`/`0o`/
`0b` integer literals and signed decimal literals (with optional fraction
and exponent) take their exact mathematical value, and every other string is
`NaN`.  Doubles are exact rationals in this model, so the final
round-to-double step of the real conversion is dropped. -/
def jsNumber (s : String) : JSNum :=
  let cs := (jsTrim s).toList
  if cs = [] then .finite 0
  else if cs.take 2 = ['0', 'x'] ∨ cs.take 2 = ['0', 'X'] then
    let ds := cs.drop 2
    if ds ≠ [] ∧ ds.all isHexDigitChar then .finite (hexToNat ds) else .nan
  else if cs.take 2 = ['0', 'o'] ∨ cs.take 2 = ['0', 'O'] then
    let ds := cs.drop 2
    if ds ≠ [] ∧ ds.all isOctDigitChar then .finite (octToNat ds) else .nan
  else if cs.take 2 = ['0', 'b'] ∨ cs.take 2 = ['0', 'B'] then
    let ds := cs.drop 2
    if ds ≠ [] ∧ ds.all isBinDigitChar then .finite (binToNat ds) else .nan
  else
    let (sgn, r0) := readSign cs
    if r0 = "Infinity".toList then (if sgn = 1 then .inf else .negInf)
    else
      let (ip, r1) := readDigits r0
      let (hasDot, rdot) :=
        match r1 with
        | '.' :: rest => (true, rest)
        | _ => (false, r1)
      let (fp, r2) := if hasDot then readDigits rdot else ([], r1)
      if ip = [] ∧ fp = [] then .nan
      else
        match r2 with
        | [] => .finite (mkVal sgn (ip ++ fp) fp.length 0)
        | 'e' :: rest =>
          let (esgn, r3) := readSign rest
          let (ed, r4) := readDigits r3
          if ed = [] ∨ r4 ≠ [] then .nan
          else .finite (mkVal sgn (ip ++ fp) fp.length (esgn * (digitsToNat ed : Int)))
        | 'E' :: rest =>
          let (esgn, r3) := readSign rest
          let (ed, r4) := readDigits r3
          if ed = [] ∨ r4 ≠ [] then .nan
          else .finite (mkVal sgn (ip ++ fp) fp.length (esgn * (digitsToNat ed : Int)))
        | _ => .nan

/-- Rounding of a nonnegative rational to 2 decimal places, ties upward. -/
def roundHalfUp2 (q : ℚ) : ℚ := (⌊q * 100 + 1 / 2⌋ : ℚ) / 100

/-- Models `toFixed(2)` rounding on a finite value: round to two decimal
places, ties away from zero (the `ECMAScript` `toFixed` algorithm applies
the tie-up rule to the absolute value and re-attaches the sign). -/
def jsToFixed2Q (q : ℚ) : ℚ :=
  if q < 0 then -roundHalfUp2 (-q) else roundHalfUp2 q

/-- Models `Number(x.toFixed(2))` from the source: a finite value is rounded
to two decimal places; `Infinity`, `-Infinity` and `NaN` print as
`"Infinity"`, `"-Infinity"` and `"NaN"`, which `Number` parses back to the
same value. -/
def jsToFixed2 : JSNum → JSNum
  | .finite q => .finite (jsToFixed2Q q)
  | x => x

/-- The two entry kinds of the ledger (`type EntryType` in the source). -/
inductive EntryType where
  | essential : EntryType
  | skip : EntryType
deriving DecidableEq, BEq, Repr

/-- A ledger entry (`type Entry` in the source).  `id` is the string
produced by `crypto.randomUUID()` and `createdAt` the ISO timestamp string
produced by `new Date().toISOString()`; both are opaque to the logic. -/
structure Entry where
  id : String
  type : EntryType
  amount : JSNum
  note : String
  createdAt : String
deriving DecidableEq, Repr

/-- The two validation failures `addEntry` can report.  The source stores
them as Danish message strings in the `validation` state; `invalidAmount`
stands for the message set when the amount is not a positive number and
`missingNote` for the message set when the trimmed note is empty. -/
inductive ValidationError where
  | invalidAmount : ValidationError
  | missingNote : ValidationError
deriving DecidableEq, Repr

/-- The mutable component state of the `Home` component that the ledger
logic touches: the budget, the entry list, the four text-input fields and
the validation message (`none` models the `null` state). -/
structure HomeState where
  budget : JSNum
  entries : List Entry
  essentialAmount : String
  essentialNote : String
  skipAmount : String
  skipNote : String
  validation : Option ValidationError
deriving DecidableEq, Repr

/-- The initial component state: `useState(4500)` for the budget, empty
entry list, empty input fields, no validation message. -/
def initialHomeState : HomeState :=
  ⟨.finite 4500, [], "", "", "", "", none⟩

/-- Models the `addEntry` handler.  `amountInput` and `noteInput` are the
raw strings from the form; `freshId` and `nowIso` stand for the
`crypto.randomUUID()` and `new Date().toISOString()` values of this call.
Mirrors the source exactly: `Number` the amount, trim the note, reject a
falsy or nonpositive amount, then an empty trimmed note, otherwise prepend
the new entry with the amount re-parsed from `toFixed(2)` and clear the
input fields of the submitted kind. -/
def addEntry (s : HomeState) (ty : EntryType) (amountInput noteInput : String)
    (freshId nowIso : String) : HomeState :=
  let amount := jsNumber amountInput
  let trimmedNote := jsTrim noteInput
  if jsFalsy amount || jsLeZero amount then
    { s with validation := some .invalidAmount }
  else if trimmedNote = "" then
    { s with validation := some .missingNote }
  else
    let newEntry : Entry := ⟨freshId, ty, jsToFixed2 amount, trimmedNote, nowIso⟩
    let s1 := { s with entries := newEntry :: s.entries, validation := none }
    match ty with
    | .essential => { s1 with essentialAmount := "", essentialNote := "" }
    | .skip => { s1 with skipAmount := "", skipNote := "" }

/-- Models the `resetMonth` handler: if the user confirms, the entry list
and all input fields are cleared and the validation message reset (the
`saveEntries([])` persistence call is a side effect outside this state);
otherwise nothing changes.  The budget is not touched. -/
def resetMonth (s : HomeState) (confirmed : Bool) : HomeState :=
  if confirmed then
    { s with entries := [], essentialAmount := "", essentialNote := "",
             skipAmount := "", skipNote := "", validation := none }
  else s

/-- Models the budget update: the slider `onChange` handler calls the state
setter with `Number(event.target.value)`, and no other code writes the
budget.  There is no range check anywhere in the source; the interval
[1500, 12000] and step 100 appear only as attributes of the slider
widget. -/
def setBudget (s : HomeState) (amount : JSNum) : HomeState :=
  { s with budget := amount }

/-- Outcome of `localStorage.getItem` for one slot: the call can throw
(caught by the surrounding `try`), return `null`, or return a stored
string. -/
inductive StorageRead where
  | throws : StorageRead
  | absent : StorageRead
  | value (s : String) : StorageRead

/-- Outcome of `JSON.parse` on a stored entries string: it throws on
malformed JSON, otherwise yields a value that the source casts (without any
validation) to `Entry[]` — the parsed value is modelled at that type. -/
inductive EntriesParseOutcome where
  | throws : EntriesParseOutcome
  | ok (entries : List Entry) : EntriesParseOutcome

/-- Models `loadEntries`: a throwing read or `JSON.parse` is caught and
yields `[]`, a `null` or empty (falsy) stored value yields `[]`, and a
successfully parsed value is returned as is. -/
def loadEntries (read : StorageRead) (parse : String → EntriesParseOutcome) :
    List Entry :=
  match read with
  | .throws => []
  | .absent => []
  | .value s =>
    if s = "" then []
    else
      match parse s with
      | .throws => []
      | .ok es => es

/-- Models `loadBudget`: a throwing read yields the default `4500`, a
`null` or empty (falsy) stored value yields `4500`, and any other stored
string is passed through `Number` — with no check that the result is a
number. -/
def loadBudget (read : StorageRead) : JSNum :=
  match read with
  | .throws => .finite 4500
  | .absent => .finite 4500
  | .value s => if s = "" then .finite 4500 else jsNumber s

/-- The essential entries, in order (`entries.filter` in `totals`). -/
def essentialEntries (entries : List Entry) : List Entry :=
  entries.filter (fun e => e.type == .essential)

/-- The skip entries, in order (`entries.filter` in `totals`). -/
def skipEntries (entries : List Entry) : List Entry :=
  entries.filter (fun e => e.type == .skip)

/-- `essentialTotal` from the `totals` memo: `reduce((sum, entry) => sum +
entry.amount, 0)` over the essential entries. -/
def essentialTotal (entries : List Entry) : JSNum :=
  (essentialEntries entries).foldl (fun sum e => jsAdd sum e.amount) (.finite 0)

/-- `skipTotal` from the `totals` memo: the same reduction over the skip
entries. -/
def skipTotal (entries : List Entry) : JSNum :=
  (skipEntries entries).foldl (fun sum e => jsAdd sum e.amount) (.finite 0)

/-- `savedAmount` from the `totals` memo:
`Math.max(budget - essentialTotal, 0) + skipTotal`. -/
def savedAmount (budget : JSNum) (entries : List Entry) : JSNum :=
  jsAdd (jsMax (jsSub budget (essentialTotal entries)) (.finite 0))
    (skipTotal entries)

/-- A local-time instant as the `Date` methods used by the code expose it:
calendar year (restricted to the common era, which covers every date the
application can meet), 1-based month, 1-based day of month, and the
millisecond offset within the day.  `getFullYear()` is `year`, `getDate()`
is `day`, and comparisons and `getTime()` differences are obtained through
`toMs` below. -/
structure Instant where
  year : Nat
  month : Nat
  day : Nat
  ms : Nat
deriving DecidableEq, Repr

/-- Gregorian leap-year rule, as implemented by JavaScript `Date`
normalisation. -/
def isLeap (y : Nat) : Bool :=
  (y % 4 == 0 && y % 100 != 0) || y % 400 == 0

/-- Number of days of February in year `y`. -/
def febDays (y : Nat) : Nat := if isLeap y then 29 else 28

/-- Number of days of month `m` (1-based) in year `y`. -/
def monthLength (y : Nat) (m : Nat) : Nat :=
  match m with
  | 1 => 31
  | 2 => febDays y
  | 3 => 31
  | 4 => 30
  | 5 => 31
  | 6 => 30
  | 7 => 31
  | 8 => 31
  | 9 => 30
  | 10 => 31
  | 11 => 30
  | 12 => 31
  | _ => 0

/-- An instant is valid when its calendar fields denote a real date and the
millisecond offset lies within the day. -/
def Instant.Valid (i : Instant) : Prop :=
  1 ≤ i.month ∧ i.month ≤ 12 ∧ 1 ≤ i.day ∧ i.day ≤ monthLength i.year i.month ∧
    i.ms < 86400000

instance (i : Instant) : Decidable i.Valid := by
  unfold Instant.Valid
  infer_instance

/-- Number of days of year `y` that precede month `m` (1-based). -/
def daysBeforeMonth (y : Nat) (m : Nat) : Nat :=
  match m with
  | 1 => 0
  | 2 => 31
  | 3 => 31 + febDays y
  | 4 => 62 + febDays y
  | 5 => 92 + febDays y
  | 6 => 123 + febDays y
  | 7 => 153 + febDays y
  | 8 => 184 + febDays y
  | 9 => 215 + febDays y
  | 10 => 245 + febDays y
  | 11 => 276 + febDays y
  | 12 => 306 + febDays y
  | _ => 0

/-- Days in the years `0, …, y - 1` of the proleptic Gregorian calendar
(counting `(y + 3) / 4 - (y + 99) / 100 + (y + 399) / 400` leap years,
year 0 itself being leap). -/
def daysBeforeYear (y : Nat) : Int :=
  365 * (y : Int) + ((y + 3) / 4 : Nat) - ((y + 99) / 100 : Nat) +
    ((y + 399) / 400 : Nat)

/-- Day number of a valid instant counted from Jan 1 of year 0. -/
def epochDay (i : Instant) : Int :=
  daysBeforeYear i.year + (daysBeforeMonth i.year i.month : Int) + (i.day : Int) - 1

/-- Millisecond timestamp of an instant, the model of `getTime()` and of
`Date` comparisons (all dates in the code live in one local timezone, so the
constant offset to UTC cancels and is omitted). -/
def toMs (i : Instant) : Int :=
  86400000 * epochDay i + (i.ms : Int)

/-- `new Date(y, 1, 1)` from the source: February 1 of year `y`, at local
midnight. -/
def febStartDate (y : Nat) : Instant := ⟨y, 2, 1, 0⟩

/-- `new Date(y, 2, 0)` from the source: day 0 of March normalises to the
last day of February of year `y`, at local midnight. -/
def febEndDate (y : Nat) : Instant := ⟨y, 2, febDays y, 0⟩

/-- `Math.ceil(a / b)` for an integer `a` and positive integer `b`: for the
millisecond magnitudes the code divides (less than `2 ^ 45`), the double
quotient is close enough to the rational one that its ceiling is exact. -/
def jsCeilDiv (a b : Int) : Int := -((-a) / b)

/-- The challenge-window record (`type ChallengeMeta` in the source).  The
numeric fields are JavaScript numbers that always hold integers here, so
they are modelled as `Int`. -/
structure ChallengeMeta where
  isActive : Bool
  dayOfMonth : Int
  daysLeft : Int
  daysInMonth : Int
  daysUntilStart : Int
  year : Nat
deriving DecidableEq, Repr

/-- Models `getChallengeMeta`, with `now` passed explicitly.  Mirrors the
source line by line: `thisYearEnd = new Date(now.getFullYear(), 2, 0)`,
`targetYear` by the instant comparison `now <= thisYearEnd`, `start` and
`end` the first and last day of February of the target year,
`isActive = now >= start && now <= end`, and the derived day counts. -/
def getChallengeMeta (now : Instant) : ChallengeMeta :=
  let thisYearEnd := febEndDate now.year
  let targetYear := if toMs now ≤ toMs thisYearEnd then now.year else now.year + 1
  let start := febStartDate targetYear
  let endDate := febEndDate targetYear
  let isActive : Bool := decide (toMs start ≤ toMs now) && decide (toMs now ≤ toMs endDate)
  let dayOfMonth : Int := if isActive then (now.day : Int) else 0
  let daysInMonth : Int := (endDate.day : Int)
  let daysLeft : Int := if isActive then daysInMonth - dayOfMonth else daysInMonth
  let daysUntilStart : Int :=
    if !isActive && decide (toMs now < toMs start) then
      max 0 (jsCeilDiv (toMs start - toMs now) 86400000)
    else 0
  ⟨isActive, dayOfMonth, daysLeft, daysInMonth, daysUntilStart, targetYear⟩

/-! Calendar facts used to characterise `getChallengeMeta`. -/

theorem febDays_bounds (y : Nat) : febDays y = 28 ∨ febDays y = 29 := by
  unfold febDays
  cases isLeap y <;> simp

theorem daysBeforeYear_succ_bounds (y : Nat) :
    daysBeforeYear y + 365 ≤ daysBeforeYear (y + 1) ∧
      daysBeforeYear (y + 1) ≤ daysBeforeYear y + 366 := by
  unfold daysBeforeYear
  omega

theorem daysBeforeYear_mono {y1 y2 : Nat} (h : y1 ≤ y2) :
    daysBeforeYear y1 ≤ daysBeforeYear y2 := by
  unfold daysBeforeYear
  omega

theorem daysBeforeYear_gap {y1 y2 : Nat} (h : y1 < y2) :
    daysBeforeYear y1 + 365 ≤ daysBeforeYear y2 := by
  have h1 := daysBeforeYear_succ_bounds y1
  have h2 := daysBeforeYear_mono (show y1 + 1 ≤ y2 from h)
  omega

theorem dayOfYear_bounds (i : Instant) (h : i.Valid) :
    1 ≤ (daysBeforeMonth i.year i.month : Int) + (i.day : Int) ∧
      (daysBeforeMonth i.year i.month : Int) + (i.day : Int) ≤ 366 := by
  obtain ⟨h1, h2, h3, h4, h5⟩ := h
  have hf := febDays_bounds i.year
  interval_cases hm : i.month <;>
    simp only [daysBeforeMonth, monthLength] at * <;> omega

/-- A valid instant is on or before the timestamp of the last day of
February of its own year (that timestamp being local midnight at the start
of that day) exactly when it is in January, or in February before the last
day, or the first instant of the last day. -/
theorem toMs_le_febEnd_iff (i : Instant) (h : i.Valid) :
    toMs i ≤ toMs (febEndDate i.year) ↔
      (i.month = 1 ∨ (i.month = 2 ∧
        (i.day < febDays i.year ∨ (i.day = febDays i.year ∧ i.ms = 0)))) := by
  obtain ⟨h1, h2, h3, h4, h5⟩ := h
  have hf := febDays_bounds i.year
  simp only [toMs, epochDay, febEndDate] at *
  interval_cases hm : i.month <;>
    simp only [daysBeforeMonth, monthLength] at * <;> norm_num <;> omega

/-- A valid instant is on or after midnight of February 1 of its own year
exactly when its month is at least February. -/
theorem febStart_le_toMs_iff (i : Instant) (h : i.Valid) :
    toMs (febStartDate i.year) ≤ toMs i ↔ 2 ≤ i.month := by
  obtain ⟨h1, h2, h3, h4, h5⟩ := h
  have hf := febDays_bounds i.year
  simp only [toMs, epochDay, febStartDate] at *
  interval_cases hm : i.month <;>
    simp only [daysBeforeMonth, monthLength] at * <;> norm_num <;> omega

theorem toMs_lt_febStart_of_year_lt (i : Instant) (h : i.Valid) {y : Nat}
    (hy : i.year < y) : toMs i < toMs (febStartDate y) := by
  have hd := dayOfYear_bounds i h
  have hg := daysBeforeYear_gap hy
  obtain ⟨h1, h2, h3, h4, h5⟩ := h
  simp only [toMs, epochDay, febStartDate, daysBeforeMonth] at *
  omega

theorem febEnd_lt_toMs_of_year_lt {y : Nat} (i : Instant) (h : i.Valid)
    (hy : y < i.year) : toMs (febEndDate y) < toMs i := by
  have hd := dayOfYear_bounds i h
  have hg := daysBeforeYear_gap hy
  have hf := febDays_bounds y
  obtain ⟨h1, h2, h3, h4, h5⟩ := h
  simp only [toMs, epochDay, febEndDate, daysBeforeMonth] at *
  omega

theorem febEndDate_day (y : Nat) : (febEndDate y).day = febDays y := rfl

/-- Behaviour of `getChallengeMeta` on the instants the code treats as
active: February of the current year, before the last day or exactly at its
first instant. -/
theorem getChallengeMeta_active (i : Instant) (h : i.Valid) (hm : i.month = 2)
    (hd : i.day < febDays i.year ∨ (i.day = febDays i.year ∧ i.ms = 0)) :
    getChallengeMeta i =
      ⟨true, (i.day : Int), (febDays i.year : Int) - (i.day : Int),
        (febDays i.year : Int), 0, i.year⟩ := by
  have hle : toMs i ≤ toMs (febEndDate i.year) :=
    (toMs_le_febEnd_iff i h).mpr (Or.inr ⟨hm, hd⟩)
  have hge : toMs (febStartDate i.year) ≤ toMs i :=
    (febStart_le_toMs_iff i h).mpr (by omega)
  simp only [getChallengeMeta]
  rw [if_pos hle]
  simp [hge, hle, febEndDate_day]

/-- Behaviour of `getChallengeMeta` on January instants: the target year is
the current year, the window is inactive, and the countdown to February 1 is
`32 - day` days. -/
theorem getChallengeMeta_january (i : Instant) (h : i.Valid) (hm : i.month = 1) :
    getChallengeMeta i =
      ⟨false, 0, (febDays i.year : Int), (febDays i.year : Int),
        32 - (i.day : Int), i.year⟩ := by
  have hle : toMs i ≤ toMs (febEndDate i.year) :=
    (toMs_le_febEnd_iff i h).mpr (Or.inl hm)
  have hnge : ¬ toMs (febStartDate i.year) ≤ toMs i := by
    rw [febStart_le_toMs_iff i h]; omega
  have hlt : toMs i < toMs (febStartDate i.year) := by omega
  have hval : jsCeilDiv (toMs (febStartDate i.year) - toMs i) 86400000 =
      32 - (i.day : Int) := by
    obtain ⟨h1, h2, h3, h4, h5⟩ := h
    simp only [jsCeilDiv, toMs, epochDay, febStartDate, hm, daysBeforeMonth] at *
    omega
  have hday : i.day ≤ 31 := by
    have h4 := h.2.2.2.1
    rw [hm, monthLength] at h4
    exact h4
  have hmax : max 0 (32 - (i.day : Int)) = 32 - (i.day : Int) :=
    max_eq_right (by omega)
  simp only [getChallengeMeta]
  rw [if_pos hle]
  simp [hnge, hlt, hval, hmax, febEndDate_day]

/-- Behaviour of `getChallengeMeta` on every other instant (later in the
last day of February, or March onwards): the target flips to the February
window of the next year, which is entirely in the future. -/
theorem getChallengeMeta_next (i : Instant) (h : i.Valid)
    (hm : ¬ (i.month = 1 ∨ (i.month = 2 ∧
      (i.day < febDays i.year ∨ (i.day = febDays i.year ∧ i.ms = 0))))) :
    getChallengeMeta i =
      ⟨false, 0, (febDays (i.year + 1) : Int), (febDays (i.year + 1) : Int),
        max 0 (jsCeilDiv (toMs (febStartDate (i.year + 1)) - toMs i) 86400000),
        i.year + 1⟩ := by
  have hnle : ¬ toMs i ≤ toMs (febEndDate i.year) := by
    rw [toMs_le_febEnd_iff i h]; exact hm
  have hlt : toMs i < toMs (febStartDate (i.year + 1)) :=
    toMs_lt_febStart_of_year_lt i h (Nat.lt_succ_self _)
  have hnge : ¬ toMs (febStartDate (i.year + 1)) ≤ toMs i := by omega
  simp only [getChallengeMeta]
  rw [if_neg hnle]
  simp [hnge, hlt, febEndDate_day]

/-- A fold of `jsAdd` over entries whose amounts are all finite and positive
starting from a finite accumulator stays finite and can only grow. -/
theorem sumAmounts_pos (l : List Entry) :
    (∀ e ∈ l, ∃ q : ℚ, e.amount = .finite q ∧ 0 < q) →
    ∀ a : ℚ, ∃ r : ℚ,
      l.foldl (fun sum e => jsAdd sum e.amount) (.finite a) = .finite r ∧ a ≤ r := by
  induction l with
  | nil => exact fun _ a => ⟨a, rfl, le_refl a⟩
  | cons e t ih =>
    intro h a
    obtain ⟨q, hq, hq0⟩ := h e (List.mem_cons_self e t)
    obtain ⟨r, hr, har⟩ := ih (fun x hx => h x (List.mem_cons_of_mem _ hx)) (a + q)
    refine ⟨r, ?_, by linarith⟩
    simpa [hq, jsAdd] using hr

/-! Claim theorems. -/

/-- Claim C1: the claim states that every instant on a calendar day from
February 1 through the last calendar day of February of the target year,
inclusive of both boundary days at any time of day, has `isActive = true`.
The code violates this: it compares the instant against the timestamp of
`new Date(year, 2, 0)`, which is local midnight at the START of the last
day of February, so already at noon of February 28, 2025 it reports the
window inactive and flips to the February 2026 window, claiming the
challenge starts in 338 days.  This theorem evaluates the code at that
failing input. -/
theorem C1_feb28_evaluation :
    (getChallengeMeta ⟨2025, 2, 28, 43200000⟩).isActive = false ∧
    (getChallengeMeta ⟨2025, 2, 28, 43200000⟩).year = 2026 ∧
    (getChallengeMeta ⟨2025, 2, 28, 43200000⟩).daysUntilStart = 338 := by decide

/-- Claim C2, counterexample: the claim states that every raw amount that
does not parse to a positive finite number is rejected with the invalid
amount error, naming infinite inputs explicitly.  The input string
`"Infinity"` parses to `Infinity`, which is neither falsy nor `<= 0`, so
the guard `!amount || amount <= 0` lets it through: no validation error is
set and an entry is prepended. -/
theorem C2_infinity_counterexample :
    (addEntry initialHomeState .skip "Infinity" "kaffe" "id0" "t0").validation =
      none ∧
    (addEntry initialHomeState .skip "Infinity" "kaffe" "id0" "t0").entries ≠
      initialHomeState.entries := by
  constructor <;> decide

/-- Claim C2 (amended): every raw amount input that parses to `NaN`, to
zero, to a negative number or to `-Infinity` (covering missing, non-numeric,
zero and negative inputs) makes `addEntry` set the invalid-amount error and
leave `entries` unchanged; conversely an input parsing to a positive finite
number is never rejected with that error.  (The amendment: a positive
INFINITE parse also escapes the invalid-amount error, see the
counterexample.) -/
theorem C2_invalid_amount (s : HomeState) (ty : EntryType)
    (amountInput noteInput freshId nowIso : String) :
    ((jsNumber amountInput = .nan ∨ jsNumber amountInput = .negInf ∨
        ∃ q : ℚ, jsNumber amountInput = .finite q ∧ q ≤ 0) →
      (addEntry s ty amountInput noteInput freshId nowIso).validation =
          some .invalidAmount ∧
        (addEntry s ty amountInput noteInput freshId nowIso).entries = s.entries) ∧
    (∀ q : ℚ, jsNumber amountInput = .finite q → 0 < q →
      (addEntry s ty amountInput noteInput freshId nowIso).validation ≠
        some .invalidAmount) := by
  constructor
  · rintro (hn | hn | ⟨q, hq, hq0⟩)
    · simp [addEntry, hn, jsFalsy]
    · simp [addEntry, hn, jsFalsy, jsLeZero]
    · simp [addEntry, hq, jsFalsy, jsLeZero, hq0]
  · intro q hq hpos
    have hne : (q == 0) = false := by simp [ne_of_gt hpos]
    have hnle : ¬ q ≤ 0 := not_le.mpr hpos
    simp only [addEntry, hq, jsFalsy, jsLeZero, hne, hnle]
    cases ty <;> split_ifs <;> simp_all

/-- Witness for claim C2 at the concrete input `"0"`, which parses to the
finite value zero. -/
theorem C2_invalid_amount_witness :
    (addEntry initialHomeState .essential "0" "kaffe" "id1" "t1").validation =
      some .invalidAmount ∧
    (addEntry initialHomeState .essential "0" "kaffe" "id1" "t1").entries =
      initialHomeState.entries :=
  (C2_invalid_amount initialHomeState .essential "0" "kaffe" "id1" "t1").1
    (Or.inr (Or.inr ⟨mkVal 1 ['0'] 0 0, rfl,
      by norm_num [mkVal, show digitsToNat ['0'] = 0 from by decide]⟩))

/-- Claim C3, counterexample: the claim states that `setBudget` with an
amount outside [1500, 12000] reports the out-of-range error and leaves the
budget unchanged.  The code has no range check at all: setting 13000
replaces the budget. -/
theorem C3_out_of_range_counterexample :
    (setBudget initialHomeState (.finite 13000)).budget ≠
      initialHomeState.budget := by
  decide

/-- Claim C3 (amended): `setBudget` performs no validation whatsoever: for
every amount, in range or not, it unconditionally replaces the budget with
that amount and touches nothing else.  The bounds [1500, 12000] and the
step 100 exist only as attributes of the slider widget; no out-of-range
error exists in the code. -/
theorem C3_set_budget_unconditional (s : HomeState) (amount : JSNum) :
    (setBudget s amount).budget = amount ∧
    (setBudget s amount).entries = s.entries ∧
    (setBudget s amount).validation = s.validation := by
  simp [setBudget]

/-- Claim C4, counterexample: the claim states that a stored budget string
that does not decode to a number yields the default 4500.  The code returns
`Number(stored)` without any check, so the stored string `"abc"` yields
`NaN`, not 4500. -/
theorem C4_bad_budget_counterexample :
    loadBudget (.value "abc") ≠ .finite 4500 := by decide

/-- Claim C4 (amended): at load time an absent slot, a throwing read, or an
empty stored string yields the documented default (`[]` for entries, 4500
for the budget) without failing, and a stored entries string on which
`JSON.parse` throws also yields `[]`; but a nonempty stored budget string
that does not decode to a number yields `NaN` rather than 4500 (see the
counterexample). -/
theorem C4_load_defaults (parse : String → EntriesParseOutcome) :
    loadEntries .throws parse = [] ∧ loadEntries .absent parse = [] ∧
    (∀ s, parse s = .throws → loadEntries (.value s) parse = []) ∧
    loadBudget .throws = .finite 4500 ∧ loadBudget .absent = .finite 4500 ∧
    loadBudget (.value "") = .finite 4500 := by
  refine ⟨rfl, rfl, ?_, rfl, rfl, by simp [loadBudget]⟩
  intro s hs
  by_cases he : s = ""
  · simp [loadEntries, he]
  · simp [loadEntries, he, hs]

/-- Witness for claim C4 at a concrete malformed stored entries string. -/
theorem C4_load_defaults_witness :
    loadEntries (.value "junk") (fun _ => .throws) = [] :=
  (C4_load_defaults (fun _ => .throws)).2.2.1 "junk" rfl

/-- Claim C5: for every ledger snapshot whose budget is finite and whose
entries all carry finite positive amounts (the documented Entry invariant),
`savedAmount` equals `max(budget - essentialTotal, 0) + skipTotal` and is
never negative, even when `essentialTotal` exceeds the budget. -/
theorem C5_saved_amount_nonneg (b : ℚ) (entries : List Entry)
    (h : ∀ e ∈ entries, ∃ q : ℚ, e.amount = .finite q ∧ 0 < q) :
    savedAmount (.finite b) entries =
      jsAdd (jsMax (jsSub (.finite b) (essentialTotal entries)) (.finite 0))
        (skipTotal entries) ∧
    ∃ r : ℚ, savedAmount (.finite b) entries = .finite r ∧ 0 ≤ r := by
  have hE : ∀ e ∈ essentialEntries entries, ∃ q : ℚ, e.amount = .finite q ∧ 0 < q :=
    fun e he => h e (List.mem_of_mem_filter he)
  have hS : ∀ e ∈ skipEntries entries, ∃ q : ℚ, e.amount = .finite q ∧ 0 < q :=
    fun e he => h e (List.mem_of_mem_filter he)
  obtain ⟨re, hre, hre0⟩ := sumAmounts_pos _ hE 0
  obtain ⟨rs, hrs, hrs0⟩ := sumAmounts_pos _ hS 0
  refine ⟨rfl, ?_⟩
  unfold savedAmount essentialTotal skipTotal
  rw [hre, hrs]
  simp only [jsSub, jsMax, jsAdd]
  refine ⟨max (b - re) 0 + rs, rfl, ?_⟩
  have hm : (0:ℚ) ≤ max (b - re) 0 := le_max_right _ _
  linarith

/-- Witness for claim C5 on a ledger with budget 4500 and one skip entry of
300. -/
theorem C5_saved_amount_witness :
    ∃ r : ℚ,
      savedAmount (.finite 4500) [⟨"s1", .skip, .finite 300, "cafe", "t1"⟩] =
        .finite r ∧ 0 ≤ r :=
  (C5_saved_amount_nonneg 4500 [⟨"s1", .skip, .finite 300, "cafe", "t1"⟩]
    (by
      intro e he
      rw [List.mem_singleton] at he
      subst he
      exact ⟨300, rfl, by norm_num⟩)).2

/-- Claim C6: for every raw amount parsing to a positive finite number and
every note that is nonempty after trimming, `addEntry` succeeds: the new
head of `entries` is an Entry carrying the amount rounded to 2 decimal
places and the trimmed note, all previous entries follow unchanged, and no
validation error is set. -/
theorem C6_add_entry_success (s : HomeState) (ty : EntryType)
    (amountInput noteInput freshId nowIso : String) (q : ℚ)
    (hq : jsNumber amountInput = .finite q) (hpos : 0 < q)
    (hnote : jsTrim noteInput ≠ "") :
    (addEntry s ty amountInput noteInput freshId nowIso).entries =
      ⟨freshId, ty, .finite (jsToFixed2Q q), jsTrim noteInput, nowIso⟩ :: s.entries ∧
    (addEntry s ty amountInput noteInput freshId nowIso).validation = none := by
  have hne : (q == 0) = false := by simp [ne_of_gt hpos]
  have hnle : ¬ q ≤ 0 := not_le.mpr hpos
  simp only [addEntry, hq, jsFalsy, jsLeZero, hne, hnle, jsToFixed2]
  cases ty <;> simp [hnote]

/-- Witness for claim C6 at the concrete inputs `"300"` and `"kaffe"`. -/
theorem C6_add_entry_success_witness :
    (addEntry initialHomeState .skip "300" "kaffe" "id2" "t2").entries =
      ⟨"id2", .skip, .finite (jsToFixed2Q (mkVal 1 ['3', '0', '0'] 0 0)),
        jsTrim "kaffe", "t2"⟩ :: initialHomeState.entries ∧
    (addEntry initialHomeState .skip "300" "kaffe" "id2" "t2").validation = none :=
  C6_add_entry_success initialHomeState .skip "300" "kaffe" "id2" "t2"
    (mkVal 1 ['3', '0', '0'] 0 0) rfl
    (by norm_num [mkVal, show digitsToNat ['3', '0', '0'] = 300 from by decide])
    (by decide)

/-- Claim C7: for every note that is empty after trimming (whitespace-only
included), with an amount parsing to a positive finite number, `addEntry`
sets the missing-note error and leaves `entries` unchanged. -/
theorem C7_missing_note (s : HomeState) (ty : EntryType)
    (amountInput noteInput freshId nowIso : String) (q : ℚ)
    (hq : jsNumber amountInput = .finite q) (hpos : 0 < q)
    (hnote : jsTrim noteInput = "") :
    (addEntry s ty amountInput noteInput freshId nowIso).validation =
      some .missingNote ∧
    (addEntry s ty amountInput noteInput freshId nowIso).entries = s.entries := by
  have hne : (q == 0) = false := by simp [ne_of_gt hpos]
  have hnle : ¬ q ≤ 0 := not_le.mpr hpos
  simp [addEntry, hq, jsFalsy, jsLeZero, hne, hnle, hnote]

/-- Witness for claim C7 at the concrete inputs `"300"` and a
whitespace-only note. -/
theorem C7_missing_note_witness :
    (addEntry initialHomeState .essential "300" "   " "id3" "t3").validation =
      some .missingNote ∧
    (addEntry initialHomeState .essential "300" "   " "id3" "t3").entries =
      initialHomeState.entries :=
  C7_missing_note initialHomeState .essential "300" "   " "id3" "t3"
    (mkVal 1 ['3', '0', '0'] 0 0) rfl
    (by norm_num [mkVal, show digitsToNat ['3', '0', '0'] = 300 from by decide])
    (by decide)

/-- Claim C8, counterexample: the claim states that every instant on the
last calendar day of February of year Y selects target year Y.  At 18:00 on
February 28, 2025 the code selects 2026, because the comparison
`now <= thisYearEnd` is against midnight at the start of that day. -/
theorem C8_feb28_counterexample :
    (getChallengeMeta ⟨2025, 2, 28, 64800000⟩).year ≠ 2025 := by decide

/-- Claim C8 (amended): the target year is the current year Y exactly when
`now` is on or before the FIRST instant (local midnight) of the last
calendar day of February of Y, and Y + 1 otherwise (the claim as stated put
the cut at the end of that day); the two boundary facts of the claim hold
as stated: any instant on January 31 of year Y yields target year Y,
`isActive = false` and `daysUntilStart = 1`, and any instant on March 1 of
year Y yields target year Y + 1 and `isActive = false`. -/
theorem C8_target_year (i : Instant) (h : i.Valid) :
    ((getChallengeMeta i).year =
      if i.month = 1 ∨ (i.month = 2 ∧
          (i.day < febDays i.year ∨ (i.day = febDays i.year ∧ i.ms = 0)))
      then i.year else i.year + 1) ∧
    (i.month = 1 ∧ i.day = 31 →
      (getChallengeMeta i).year = i.year ∧ (getChallengeMeta i).isActive = false ∧
        (getChallengeMeta i).daysUntilStart = 1) ∧
    (i.month = 3 ∧ i.day = 1 →
      (getChallengeMeta i).year = i.year + 1 ∧
        (getChallengeMeta i).isActive = false) := by
  refine ⟨?_, ?_, ?_⟩
  · by_cases hj : i.month = 1
    · rw [getChallengeMeta_january i h hj, if_pos (Or.inl hj)]
    · by_cases ha : i.month = 2 ∧
          (i.day < febDays i.year ∨ (i.day = febDays i.year ∧ i.ms = 0))
      · rw [getChallengeMeta_active i h ha.1 ha.2, if_pos (Or.inr ha)]
      · rw [getChallengeMeta_next i h (fun hor => hor.elim hj ha),
          if_neg (fun hor => hor.elim hj ha)]
  · rintro ⟨hm, hd⟩
    rw [getChallengeMeta_january i h hm]
    refine ⟨rfl, rfl, ?_⟩
    simp [hd]
  · rintro ⟨hm, hd⟩
    rw [getChallengeMeta_next i h (by simp [hm])]
    exact ⟨rfl, rfl⟩

/-- Witness for claim C8 at noon of January 31, 2025. -/
theorem C8_target_year_witness :
    (getChallengeMeta ⟨2025, 1, 31, 43200000⟩).year = 2025 ∧
    (getChallengeMeta ⟨2025, 1, 31, 43200000⟩).isActive = false ∧
    (getChallengeMeta ⟨2025, 1, 31, 43200000⟩).daysUntilStart = 1 :=
  (C8_target_year ⟨2025, 1, 31, 43200000⟩ (by decide)).2.1 ⟨rfl, rfl⟩

/-- Claim C9: resetting the month (with the confirmation dialog accepted)
empties the entry list and does not touch the budget. -/
theorem C9_reset_preserves_budget (s : HomeState) :
    (resetMonth s true).entries = [] ∧ (resetMonth s true).budget = s.budget := by
  simp [resetMonth]

/-- Claim C10: for every valid instant, the challenge window state
satisfies: `daysInMonth` is 28 or 29; `dayOfMonth` lies between 0 and
`daysInMonth`; `daysLeft` lies between 0 and `daysInMonth`;
`daysUntilStart` is nonnegative; and the window is active exactly when
`dayOfMonth` is at least 1. -/
theorem C10_window_invariants (i : Instant) (h : i.Valid) :
    ((getChallengeMeta i).daysInMonth = 28 ∨ (getChallengeMeta i).daysInMonth = 29) ∧
    0 ≤ (getChallengeMeta i).dayOfMonth ∧
    (getChallengeMeta i).dayOfMonth ≤ (getChallengeMeta i).daysInMonth ∧
    0 ≤ (getChallengeMeta i).daysLeft ∧
    (getChallengeMeta i).daysLeft ≤ (getChallengeMeta i).daysInMonth ∧
    0 ≤ (getChallengeMeta i).daysUntilStart ∧
    ((getChallengeMeta i).isActive = true ↔ 1 ≤ (getChallengeMeta i).dayOfMonth) := by
  have hv := h
  obtain ⟨h1, h2, h3, h4, h5⟩ := hv
  by_cases hj : i.month = 1
  · rw [getChallengeMeta_january i h hj]
    have hf := febDays_bounds i.year
    rw [hj, monthLength] at h4
    simp
    omega
  · by_cases ha : i.month = 2 ∧
        (i.day < febDays i.year ∨ (i.day = febDays i.year ∧ i.ms = 0))
    · rw [getChallengeMeta_active i h ha.1 ha.2]
      have hf := febDays_bounds i.year
      rw [ha.1, monthLength] at h4
      simp
      omega
    · rw [getChallengeMeta_next i h (fun hor => hor.elim hj ha)]
      have hf := febDays_bounds (i.year + 1)
      have hmax := le_max_left (0 : Int)
        (jsCeilDiv (toMs (febStartDate (i.year + 1)) - toMs i) 86400000)
      simp
      omega

/-- Witness for claim C10 at midnight of February 10, 2026. -/
theorem C10_window_invariants_witness :
    ((getChallengeMeta ⟨2026, 2, 10, 0⟩).daysInMonth = 28 ∨
      (getChallengeMeta ⟨2026, 2, 10, 0⟩).daysInMonth = 29) ∧
    0 ≤ (getChallengeMeta ⟨2026, 2, 10, 0⟩).dayOfMonth ∧
    (getChallengeMeta ⟨2026, 2, 10, 0⟩).dayOfMonth ≤
      (getChallengeMeta ⟨2026, 2, 10, 0⟩).daysInMonth ∧
    0 ≤ (getChallengeMeta ⟨2026, 2, 10, 0⟩).daysLeft ∧
    (getChallengeMeta ⟨2026, 2, 10, 0⟩).daysLeft ≤
      (getChallengeMeta ⟨2026, 2, 10, 0⟩).daysInMonth ∧
    0 ≤ (getChallengeMeta ⟨2026, 2, 10, 0⟩).daysUntilStart ∧
    ((getChallengeMeta ⟨2026, 2, 10, 0⟩).isActive = true ↔
      1 ≤ (getChallengeMeta ⟨2026, 2, 10, 0⟩).dayOfMonth) :=
  C10_window_invariants ⟨2026, 2, 10, 0⟩ (by decide)
